import Mathlib

/-!
Verification development for the real-time collaborative form backend
(`src/backend/src/services/socketService.ts`).

The socket handlers are embedded shallowly: the Supabase tables become
lists of rows, each socket handler becomes a pure function from a server
state and its inputs to a new server state plus the list of emitted
socket events, and timestamps are naturals counting milliseconds
(`Date.now()`).  The embedding follows the TypeScript source line by
line; deviations forced by the host language are noted next to the
definition they concern.
-/

/-! ## Database rows

Row shapes follow the tables used by `socketService.ts` (and the
`Database` interface declared in `src/middleware/auth.ts`).  The column
named `type` in `form_fields` is called `ty` here because `type` is a
reserved word in Lean.

The `field_locks` rows are given an optional `sharing_code_id` column:
`socketService.ts` filters on that column in the `field-update` lock
check, the sweeper and the lock-refresh, even though the `Database`
interface in `auth.ts` declares `field_locks` without it and no writer in
the repository ever populates it.  Modelling it as `Option String` (with
the only writer, the `lock-field` upsert, storing `none`) is the reading
most favourable to the code: if the column does not exist at all, every
query naming it errors out and strictly less behaviour survives. -/

structure UserRow where
  id : String
  email : String
deriving DecidableEq, Repr

structure FormRow where
  id : String
  share_code : String
  is_active : Bool
  title : String
deriving DecidableEq, Repr

structure SharingCodeRow where
  id : String
  share_code : String
  form_id : String
  group_name : String
  is_active : Bool
deriving DecidableEq, Repr

structure FieldRow where
  id : String
  form_id : String
  label : String
  ty : String
deriving DecidableEq, Repr

structure LockRow where
  user_id : String
  form_id : String
  field_id : String
  sharing_code_id : Option String
  expires_at : Nat
deriving DecidableEq, Repr

structure ResponseRow where
  id : String
  form_id : String
  sharing_code_id : String
  user_id : String
  created_at : Nat
deriving DecidableEq, Repr

structure ResponseFieldRow where
  response_id : String
  field_id : String
  value : String
deriving DecidableEq, Repr

structure ContributionRow where
  form_id : String
  sharing_code_id : String
  field_id : String
  user_id : String
  value : String
  updated_at : Nat
deriving DecidableEq, Repr

structure DB where
  users : List UserRow
  forms : List FormRow
  form_sharing_codes : List SharingCodeRow
  form_fields : List FieldRow
  field_locks : List LockRow
  form_responses : List ResponseRow
  response_fields : List ResponseFieldRow
  field_contributions : List ContributionRow
deriving DecidableEq, Repr

/-- A connected, authenticated socket: `socket.id`, `socket.userId`,
`socket.userEmail`, and the set of joined rooms (share codes). -/
structure Session where
  sid : String
  userId : String
  userEmail : String
  rooms : List String
deriving DecidableEq, Repr

/-- Server state: the database plus the live connection registry.
`nextRespId` supplies fresh identifiers for rows inserted into
`form_responses`.  `respUpsertFails` is the storage-failure oracle for
the one fallible write the claims care about: the `response_fields`
upsert inside the `field-update` handler (the code checks its `error`
result and branches). -/
structure ServerState where
  db : DB
  sessions : List Session
  nextRespId : Nat
  respUpsertFails : Bool
deriving DecidableEq, Repr

/-! ## Emitted socket events -/

inductive Payload where
  | errorMsg (msg : String)
  | fieldLocked (fieldId userId userEmail : String)
  | fieldUnlocked (fieldId : String)
  | lockFailed (fieldId reason lockedBy : String)
  | fieldUpdated (fieldId value updatedBy fieldLabel groupName : String) (timestamp : Nat)
  | formSubmittedAll (submittedBy responseId : String) (formTitle : Option String)
      (groupName : String) (timestamp : Nat) (formData : List (String × String))
  | formResetAll (resetBy : String) (timestamp : Nat)
  | userLeft (userId email : String)
  | activeUsers (users : List String)
deriving DecidableEq, Repr

/-- Delivery targets: `socket.emit` (requesting socket only),
`io.to(room).emit` (all room members), `socket.to(room).emit` (room
members except the sender). -/
inductive Target where
  | socketOnly (sid : String)
  | room (name : String)
  | roomExcept (name sid : String)
deriving DecidableEq, Repr

structure Emission where
  target : Target
  payload : Payload
deriving DecidableEq, Repr

/-- Whether session `m` receives emission `e`, given socket.io delivery
semantics for the three targeting modes. -/
def receives (e : Emission) (m : Session) : Bool :=
  match e.target with
  | .socketOnly sid => m.sid == sid
  | .room r => m.rooms.contains r
  | .roomExcept r sid => m.rooms.contains r && m.sid != sid

def Payload.isFieldUpdated : Payload → Bool
  | .fieldUpdated .. => true
  | _ => false

/-! ## Value sanitisation and validation -/

/-- Drop leading and trailing whitespace from a character list. -/
def trimChars (l : List Char) : List Char :=
  ((l.dropWhile Char.isWhitespace).reverse.dropWhile Char.isWhitespace).reverse

/-- Embedding of `String(value).trim()`, stripping the ASCII whitespace
characters, which is what matters for the values under test; JS
additionally strips rare Unicode space characters. -/
def jsTrim (s : String) : String := String.mk (trimChars s.data)

/-- ASCII uppercase map, embedding `fieldType.toUpperCase()`. -/
def toUpperStr (s : String) : String := String.mk (s.data.map Char.toUpper)

/-- Split a character list at commas, embedding `value.split(",")` (JS
semantics: the empty list yields one empty token, a trailing comma
yields a trailing empty token). -/
def splitComma : List Char → List (List Char)
  | [] => [[]]
  | c :: rest =>
      if c == ',' then [] :: splitComma rest
      else
        match splitComma rest with
        | [] => [[c]]
        | g :: gs => (c :: g) :: gs

/-- A character matching the class `[^\s@]` of the email regex in
`validateFieldValue`: neither whitespace nor `@`. -/
def emailOkChar (c : Char) : Bool := !(c.isWhitespace || c == '@')

/-- The character list has a `.` at some position that is neither first
nor last.  Within an all-`emailOkChar` suffix this is exactly what the
regex fragment `[^\s@]+\.[^\s@]+` demands (the fragment needs a dot with
a non-empty run of class characters on both sides, and `.` itself is in
the class, so any interior dot splits the suffix suitably). -/
def hasInteriorDot : List Char → Bool
  | [] => false
  | _ :: t => t.dropLast.contains '.'

/-- Embedding of `/^[^\s@]+@[^\s@]+\.[^\s@]+$/.test(value)` from the
inner `validateFieldValue`.  The anchored regex matches exactly the
strings of the form `local@domain` where `local` is a non-empty run of
`[^\s@]` characters and `domain` is a non-empty run of `[^\s@]`
characters containing an interior dot, so the whole string contains
exactly one `@`, no whitespace, and a suitably placed dot. -/
def emailRegexTest (s : String) : Bool :=
  let cs := s.data
  let localPart := cs.takeWhile (fun c => c != '@')
  let rest := cs.dropWhile (fun c => c != '@')
  match rest with
  | [] => false
  | _ :: domain =>
      !localPart.isEmpty
        && localPart.all emailOkChar
        && domain.all emailOkChar
        && hasInteriorDot domain

def isDecDigit (c : Char) : Bool := '0' ≤ c && c ≤ '9'

def isHexDigit (c : Char) : Bool :=
  isDecDigit c || ('a' ≤ c && c ≤ 'f') || ('A' ≤ c && c ≤ 'F')

def isOctDigit (c : Char) : Bool := '0' ≤ c && c ≤ '7'

def isBinDigit (c : Char) : Bool := c == '0' || c == '1'

/-- A non-empty run of decimal digits. -/
def digits1 (l : List Char) : Bool := !l.isEmpty && l.all isDecDigit

/-- Remainder after the mantissa: either nothing, or an exponent part
`e`/`E`, optional sign, one or more digits. -/
def expPart : List Char → Bool
  | [] => true
  | c :: rest =>
      if c == 'e' || c == 'E' then
        match rest with
        | '+' :: r => digits1 r
        | '-' :: r => digits1 r
        | r => digits1 r
      else false

/-- A decimal mantissa with optional fraction, followed by an optional
exponent part: `DecimalDigits ['.' DecimalDigits?] ExponentPart?` or
`'.' DecimalDigits ExponentPart?`. -/
def decMantissa (l : List Char) : Bool :=
  let intPart := l.takeWhile isDecDigit
  let rest := l.dropWhile isDecDigit
  match rest with
  | '.' :: r2 =>
      let fracPart := r2.takeWhile isDecDigit
      let rest2 := r2.dropWhile isDecDigit
      (!intPart.isEmpty || !fracPart.isEmpty) && expPart rest2
  | _ => !intPart.isEmpty && expPart rest

/-- Embedding of `!isNaN(Number(value)) && isFinite(Number(value))` on an
already-trimmed string: the string conforms to the numeric-literal
grammar accepted by JS `Number()` (optionally signed decimal with
fraction and exponent, or unsigned `0x`/`0o`/`0b` radix literal) and is
not an `Infinity` literal.  Magnitude overflow of the double range
(for instance `1e999`, which `Number()` maps to `Infinity`) is outside
this syntactic model. -/
def jsNumberFinite (s : String) : Bool :=
  match s.data with
  | '0' :: 'x' :: r => !r.isEmpty && r.all isHexDigit
  | '0' :: 'X' :: r => !r.isEmpty && r.all isHexDigit
  | '0' :: 'o' :: r => !r.isEmpty && r.all isOctDigit
  | '0' :: 'O' :: r => !r.isEmpty && r.all isOctDigit
  | '0' :: 'b' :: r => !r.isEmpty && r.all isBinDigit
  | '0' :: 'B' :: r => !r.isEmpty && r.all isBinDigit
  | l =>
      let unsigned := match l with
        | '+' :: r => r
        | '-' :: r => r
        | r => r
      if unsigned == "Infinity".data then false else decMantissa unsigned

/-- Embedding of the inner `validateFieldValue` (the function declared
inside the `connection` callback, which shadows the module-level one of
the same name for every handler registered in that scope).  String
lengths count characters; JS counts UTF-16 units, which coincide on the
basic multilingual plane. -/
def validateFieldValue (fieldType : String) (value : String) : Bool :=
  if value == "" || trimChars value.data == [] then true
  else
    match toUpperStr fieldType with
    | "EMAIL" => emailRegexTest value
    | "NUMBER" => jsNumberFinite value
    | "TEXT" => decide (value.length ≤ 10000)
    | "TEXTAREA" => decide (value.length ≤ 10000)
    | "DROPDOWN" => decide (value.length ≤ 500)
    | "RADIO" => decide (value.length ≤ 500)
    | "CHECKBOX" => (splitComma value.data).all (fun v => decide ((trimChars v).length ≤ 500))
    | _ => true

example : validateFieldValue "EMAIL" "not-an-email" = false := by decide
example : validateFieldValue "EMAIL" "a@b.co" = true := by decide
example : validateFieldValue "NUMBER" "12.5e3" = true := by decide
example : validateFieldValue "NUMBER" "12px" = false := by decide
example : validateFieldValue "NUMBER" "Infinity" = false := by decide
example : validateFieldValue "TEXT" "hello" = true := by decide
example : validateFieldValue "EMAIL" "" = true := by decide

/-! ## Lock-table primitives

These embed the Supabase calls made against `field_locks`. -/

/-- One lock-field key/liveness predicate, matching the query
`.eq("form_id", formId).eq("field_id", fieldId).gt("expires_at", now)`
issued by the `lock-field` handler. -/
def lockLiveKey (formId fieldId : String) (now : Nat) (l : LockRow) : Bool :=
  l.form_id == formId && l.field_id == fieldId && decide (now < l.expires_at)

/-- The `lock-field` handler's existing-lock query (`.single()` on the
filtered table, modelled as the first matching row). -/
def liveLockFor (db : DB) (formId fieldId : String) (now : Nat) : Option LockRow :=
  db.field_locks.find? (lockLiveKey formId fieldId now)

/-- Key predicate of the `field_locks` upsert conflict target
`onConflict: "form_id,field_id"`. -/
def lockKeyMatches (formId fieldId : String) (l : LockRow) : Bool :=
  l.form_id == formId && l.field_id == fieldId

/-- Embedding of `supabase.from("field_locks").upsert(row, { onConflict:
"form_id,field_id" })`: replace the row with the same conflict key if one
exists, insert otherwise. -/
def upsertLock (locks : List LockRow) (r : LockRow) : List LockRow :=
  if locks.any (lockKeyMatches r.form_id r.field_id) then
    locks.map (fun l => if lockKeyMatches r.form_id r.field_id l then r else l)
  else locks ++ [r]

/-- All rows of the lock table sharing one `(form_id, field_id)` conflict
key. -/
def rowsForKey (formId fieldId : String) (locks : List LockRow) : List LockRow :=
  locks.filter (lockKeyMatches formId fieldId)

/-- The non-expired rows of the lock table for one `(form_id, field_id)`
key at instant `now`. -/
def liveRowsForKey (formId fieldId : String) (now : Nat) (locks : List LockRow) : List LockRow :=
  (rowsForKey formId fieldId locks).filter (fun l => decide (now < l.expires_at))

/-- Emails of the users matching `uid`: the `users(email)` join on a lock
row, modelled as the list of matching `users` rows. -/
def emailsOf (db : DB) (uid : String) : List String :=
  (db.users.filter (fun u => u.id == uid)).map (fun u => u.email)

/-- Embedding of the `lock-failed` holder display: `Array.isArray(users)
&& users.length > 0 ? users[0].email : "Another user"`. -/
def lockedByName (db : DB) (l : LockRow) : String :=
  match emailsOf db l.user_id with
  | [] => "Another user"
  | e :: _ => e

/-! ## Other storage primitives used by `field-update` -/

/-- The `form_sharing_codes` lookup `.eq("share_code",
shareCode).eq("is_active", true).single()`. -/
def findSharingCode (db : DB) (shareCode : String) : Option SharingCodeRow :=
  db.form_sharing_codes.find? (fun sc => sc.share_code == shareCode && sc.is_active)

/-- The `forms` lookup of the `lock-field` handler: `.eq("share_code",
shareCode).eq("is_active", true).single()` (note: against the `forms`
table's own `share_code` column, not `form_sharing_codes`). -/
def findForm (db : DB) (shareCode : String) : Option FormRow :=
  db.forms.find? (fun f => f.share_code == shareCode && f.is_active)

/-- Embedding of the `field_contributions` upsert with `onConflict:
"form_id,sharing_code_id,field_id,user_id"`. -/
def upsertContribution (rows : List ContributionRow) (r : ContributionRow) : List ContributionRow :=
  let key := fun (x : ContributionRow) =>
    x.form_id == r.form_id && x.sharing_code_id == r.sharing_code_id
      && x.field_id == r.field_id && x.user_id == r.user_id
  if rows.any key then rows.map (fun x => if key x then r else x) else rows ++ [r]

/-- Embedding of the `response_fields` upsert with `onConflict:
"response_id,field_id"`. -/
def upsertResponseField (rows : List ResponseFieldRow) (r : ResponseFieldRow) : List ResponseFieldRow :=
  let key := fun (x : ResponseFieldRow) =>
    x.response_id == r.response_id && x.field_id == r.field_id
  if rows.any key then rows.map (fun x => if key x then r else x) else rows ++ [r]

/-- The `form_responses` query of `getOrCreateCollaborativeResponse`:
most recent response for this form and sharing code (`.order("created_at",
descending).limit(1).single()`). -/
def latestResponse (db : DB) (formId scId : String) : Option ResponseRow :=
  (db.form_responses.filter
      (fun r => r.form_id == formId && r.sharing_code_id == scId)).foldl
    (fun acc r =>
      match acc with
      | none => some r
      | some a => if a.created_at < r.created_at then some r else some a)
    none

/-- Embedding of `getOrCreateCollaborativeResponse(formId, sharingCodeId,
userId)`: return the latest collaborative response, creating one when
none exists.  The insert-failure branch of the source (which returns
`null` and is only logged by the caller) is not modelled; the storage
oracle of interest to the claims is the `response_fields` upsert. -/
def getOrCreateCollaborativeResponse (st : ServerState) (formId scId userId : String)
    (now : Nat) : ServerState × ResponseRow :=
  match latestResponse st.db formId scId with
  | some r => (st, r)
  | none =>
      let r : ResponseRow :=
        { id := "resp-" ++ toString st.nextRespId, form_id := formId,
          sharing_code_id := scId, user_id := userId, created_at := now }
      ({ st with
          db := { st.db with form_responses := st.db.form_responses ++ [r] },
          nextRespId := st.nextRespId + 1 }, r)

/-! ## Room membership -/

/-- Embedding of `getActiveUsersInRoom(io, roomName)`: emails of the live
sessions currently joined to the room, read from the connection
registry. -/
def getActiveUsersInRoom (sessions : List Session) (roomName : String) : List String :=
  (sessions.filter (fun s => s.rooms.contains roomName)).map (fun s => s.userEmail)

/-! ## The `lock-field` handler -/

/-- Embedding of the `lock-field` handler (socketService.ts lines
251-342).  Resolve the form by its own `share_code`; reject when a
non-expired lock by a different user exists; otherwise upsert a fresh
lock expiring 60000 ms from now — with `sharing_code_id := none`, because
the source row `{ user_id, form_id, field_id, expires_at }` carries no
`sharing_code_id` — and broadcast `field-locked` to the whole room. -/
def lockField (st : ServerState) (s : Session) (shareCode fieldId : String) (now : Nat) :
    ServerState × List Emission :=
  match findForm st.db shareCode with
  | none => (st, [⟨.socketOnly s.sid, .errorMsg "Form not found"⟩])
  | some form =>
      match liveLockFor st.db form.id fieldId now with
      | some l =>
          if l.user_id != s.userId then
            (st, [⟨.socketOnly s.sid,
                   .lockFailed fieldId "Field already locked" (lockedByName st.db l)⟩])
          else
            let newLock : LockRow :=
              { user_id := s.userId, form_id := form.id, field_id := fieldId,
                sharing_code_id := none, expires_at := now + 60000 }
            let db' := { st.db with field_locks := upsertLock st.db.field_locks newLock }
            ({ st with db := db' },
             [⟨.room shareCode, .fieldLocked fieldId s.userId s.userEmail⟩])
      | none =>
          let newLock : LockRow :=
            { user_id := s.userId, form_id := form.id, field_id := fieldId,
              sharing_code_id := none, expires_at := now + 60000 }
          let db' := { st.db with field_locks := upsertLock st.db.field_locks newLock }
          ({ st with db := db' },
           [⟨.room shareCode, .fieldLocked fieldId s.userId s.userEmail⟩])

/-! ## The `field-update` handler -/

/-- The lock query of the `field-update` handler (lines 448-454): note it
filters on `sharing_code_id`, not on `form_id` as the `lock-field`
handler's write does. -/
def updateLockQuery (db : DB) (scId fieldId : String) (now : Nat) : Option LockRow :=
  db.field_locks.find?
    (fun l => l.sharing_code_id == some scId && l.field_id == fieldId
      && decide (now < l.expires_at))

/-- Accepted-update tail of the `field-update` handler (lines 488-597):
contribution tracking, broadcast to the rest of the room, response-field
persistence (subject to the storage oracle; a failure is only logged),
and lock refresh when the acting user holds the lock. -/
def acceptFieldUpdate (st : ServerState) (s : Session) (sc : SharingCodeRow)
    (form : FormRow) (field : FieldRow) (shareCode fieldId sanitizedValue : String)
    (lockOpt : Option LockRow) (now : Nat) : ServerState × List Emission :=
  let contribution : ContributionRow :=
    { form_id := form.id, sharing_code_id := sc.id, field_id := fieldId,
      user_id := s.userId, value := sanitizedValue, updated_at := now }
  let db1 := if sanitizedValue != "" then
      { st.db with
        field_contributions := upsertContribution st.db.field_contributions contribution }
    else st.db
  let broadcast : Emission :=
    ⟨.roomExcept shareCode s.sid,
     .fieldUpdated fieldId sanitizedValue s.userEmail field.label sc.group_name now⟩
  let st1 := { st with db := db1 }
  let stResp := getOrCreateCollaborativeResponse st1 form.id sc.id s.userId now
  let st2 := stResp.1
  let response := stResp.2
  let respField : ResponseFieldRow :=
    { response_id := response.id, field_id := fieldId, value := sanitizedValue }
  let db3 := if st2.respUpsertFails then st2.db
    else { st2.db with
           response_fields := upsertResponseField st2.db.response_fields respField }
  let heldByUser := match lockOpt with
    | some l => l.user_id == s.userId
    | none => false
  let db4 := if heldByUser then
      { db3 with field_locks := db3.field_locks.map (fun l =>
          if l.sharing_code_id == some sc.id && l.field_id == fieldId
              && l.user_id == s.userId then
            { l with expires_at := now + 60000 }
          else l) }
    else db3
  ({ st2 with db := db4 }, [broadcast])

/-- Embedding of the `field-update` handler (lines 382-603): input
validation, share-code and field resolution, type validation, the
sharing-code-keyed lock-authorization check, then the accepted-update
tail. -/
def fieldUpdate (st : ServerState) (s : Session) (shareCode fieldId value : String)
    (now : Nat) : ServerState × List Emission :=
  if shareCode == "" || fieldId == "" then
    (st, [⟨.socketOnly s.sid, .errorMsg "Invalid field update data"⟩])
  else
    let sanitizedValue := jsTrim value
    match findSharingCode st.db shareCode with
    | none => (st, [⟨.socketOnly s.sid, .errorMsg "Share code not found or inactive"⟩])
    | some sc =>
        match st.db.forms.find? (fun f => f.id == sc.form_id) with
        | none => (st, [⟨.socketOnly s.sid, .errorMsg "Failed to update field"⟩])
        | some form =>
            if !form.is_active then
              (st, [⟨.socketOnly s.sid, .errorMsg "Form is not active"⟩])
            else
              match st.db.form_fields.find?
                  (fun f => f.id == fieldId && f.form_id == form.id) with
              | none => (st, [⟨.socketOnly s.sid, .errorMsg "Field not found in this form"⟩])
              | some field =>
                  if sanitizedValue != "" && !validateFieldValue field.ty sanitizedValue then
                    (st, [⟨.socketOnly s.sid,
                           .errorMsg ("Invalid value for " ++ field.ty ++ " field")⟩])
                  else
                    match updateLockQuery st.db sc.id fieldId now with
                    | some lock =>
                        if lock.user_id != s.userId then
                          let lockedByEmail := (emailsOf st.db lock.user_id).headD "another user"
                          (st, [⟨.socketOnly s.sid,
                                 .errorMsg ("Field is locked by " ++ lockedByEmail
                                   ++ " in this group")⟩])
                        else
                          acceptFieldUpdate st s sc form field shareCode fieldId
                            sanitizedValue (some lock) now
                    | none =>
                        acceptFieldUpdate st s sc form field shareCode fieldId
                          sanitizedValue none now

/-! ## The `form-submit` handler -/

/-- Embedding of the `form-submit` handler (lines 710-759): resolve the
sharing code (no `is_active` filter here), then broadcast
`form-submitted-all` to the whole room, submitter included.  The source
reads the joined form title as `sharingCodeData.forms[0]?.title`; the
join is modelled as the list of matching `forms` rows, so the title is
the head of that list when present. -/
def formSubmitHandler (st : ServerState) (s : Session) (shareCode submittedBy
    responseId : String) (formData : List (String × String)) (now : Nat) :
    ServerState × List Emission :=
  match st.db.form_sharing_codes.find? (fun sc => sc.share_code == shareCode) with
  | none => (st, [⟨.socketOnly s.sid, .errorMsg "Share code not found"⟩])
  | some sc =>
      let formTitle :=
        ((st.db.forms.filter (fun f => f.id == sc.form_id)).map (fun f => f.title)).head?
      (st, [⟨.room shareCode,
             .formSubmittedAll submittedBy responseId formTitle sc.group_name now formData⟩])

/-! ## The `form-reset` handlers

The source registers **two** listeners for the `form-reset` event (lines
762-780 and 783-801), with identical bodies; an event emitter runs every
registered listener on each event, in registration order. -/

/-- Embedding of the first `form-reset` listener (lines 762-780). -/
def formResetHandlerA (shareCode resetBy : String) (now : Nat) : List Emission :=
  [⟨.room shareCode, .formResetAll resetBy now⟩]

/-- Embedding of the second `form-reset` listener (lines 783-801), whose
body repeats the first. -/
def formResetHandlerB (shareCode resetBy : String) (now : Nat) : List Emission :=
  [⟨.room shareCode, .formResetAll resetBy now⟩]

/-- Dispatch of one `form-reset` event: both registered listeners run, in
registration order. -/
def formResetDispatch (shareCode resetBy : String) (now : Nat) : List Emission :=
  formResetHandlerA shareCode resetBy now ++ formResetHandlerB shareCode resetBy now

/-! ## The `disconnect` handler -/

/-- The value of `Array.from(socket.rooms)` inside a `disconnect`
listener.  Socket.io removes the disconnecting socket from all of its
rooms (including its private id room) *before* firing the `disconnect`
event — rooms are only still visible in the `disconnecting` event — so
the handler observes an empty set regardless of the rooms the session
was in. -/
def roomsVisibleInDisconnectEvent (_s : Session) : List String := []

/-- Embedding of the `disconnect` handler (lines 836-874): iterate the
rooms visible on the socket, notifying `user-left` to the others and
broadcasting the recomputed `active-users` roster; then delete every
`field_locks` row whose `user_id` is the disconnecting user.  The
connection registry no longer contains the socket when the event
fires. -/
def disconnectHandler (st : ServerState) (s : Session) : ServerState × List Emission :=
  let sessions' := st.sessions.filter (fun x => x.sid != s.sid)
  let rooms := roomsVisibleInDisconnectEvent s
  let ems := rooms.foldl
    (fun acc room =>
      if room != s.sid then
        acc ++ [⟨.roomExcept room s.sid, .userLeft s.userId s.userEmail⟩,
                ⟨.room room, .activeUsers (getActiveUsersInRoom sessions' room)⟩]
      else acc)
    []
  let db' := { st.db with
    field_locks := st.db.field_locks.filter (fun l => l.user_id != s.userId) }
  ({ st with db := db', sessions := sessions' }, ems)

/-! ## The expired-lock sweeper -/

/-- Embedding of `cleanupExpiredLocks(io)` (lines 23-83), run by
`setInterval` every 30000 ms: select the locks with `expires_at < now`,
resolve their `sharing_code_id`s against `form_sharing_codes`, emit one
`field-unlocked` per expired lock to the room of its resolved share code
(locks whose `sharing_code_id` resolves to no sharing code produce no
notification), then delete the expired rows. -/
def cleanupExpiredLocks (st : ServerState) (now : Nat) : ServerState × List Emission :=
  let expired := st.db.field_locks.filter (fun l => decide (l.expires_at < now))
  if expired.isEmpty then (st, [])
  else
    let ems := expired.filterMap (fun l =>
      match l.sharing_code_id with
      | none => none
      | some scid =>
          match st.db.form_sharing_codes.find? (fun sc => sc.id == scid) with
          | none => none
          | some sc => some ⟨Target.room sc.share_code, Payload.fieldUnlocked l.field_id⟩)
    let db' := { st.db with
      field_locks := st.db.field_locks.filter (fun l => !decide (l.expires_at < now)) }
    ({ st with db := db' }, ems)

/-- The sweep instants: `setInterval(cleanupExpiredLocks, 30000)` fires
at 30000, 60000, 90000, ... ms after setup. -/
def sweepInstant (k : Nat) : Nat := 30000 * (k + 1)

/-! ## Interleaved lock acquisition (the race model for concurrent
`lock-field` attempts)

The `lock-field` handler performs its existing-lock *check* (a select)
and its *upsert* as two separate awaited storage calls, so steps of
different sessions' attempts may interleave between the two.  Attempt
`i` is performed by user `users i`; a schedule is any list of `check`
and `upsert` steps.  A `check` step records that the attempt passed the
handler's guard (no live lock, or a live lock held by the same user) and
an `upsert` step performs the handler's upsert only if its attempt
passed — exactly the two halves of `lockField`. -/

inductive AcquireStep where
  | check (i : Nat)
  | put (i : Nat)
deriving DecidableEq, Repr

structure RaceState where
  locks : List LockRow
  passed : List Nat
deriving DecidableEq, Repr

/-- The lock row written by attempt `i`, as the `lock-field` handler
builds it. -/
def attemptRow (users : Nat → String) (formId fieldId : String) (now : Nat) (i : Nat) :
    LockRow :=
  { user_id := users i, form_id := formId, field_id := fieldId,
    sharing_code_id := none, expires_at := now + 60000 }

/-- Semantics of one interleaved step of a `lock-field` attempt. -/
def acquireStepRun (users : Nat → String) (formId fieldId : String) (now : Nat)
    (step : AcquireStep) (st : RaceState) : RaceState :=
  match step with
  | .check i =>
      match st.locks.find? (lockLiveKey formId fieldId now) with
      | none => { st with passed := i :: st.passed }
      | some l =>
          if l.user_id == users i then { st with passed := i :: st.passed } else st
  | .put i =>
      if i ∈ st.passed then
        { st with locks := upsertLock st.locks (attemptRow users formId fieldId now i) }
      else st

/-- Run a whole schedule of interleaved steps. -/
def runRace (users : Nat → String) (formId fieldId : String) (now : Nat)
    (sched : List AcquireStep) (st : RaceState) : RaceState :=
  match sched with
  | [] => st
  | step :: rest =>
      runRace users formId fieldId now rest (acquireStepRun users formId fieldId now step st)

/-! ## A concrete scenario

One active form `f1` whose own share code is `G`, one sharing code row
`sc1` for the same code, two users with live sessions in room `G`, one
TEXT field.  Used to instantiate the claim theorems. -/

def userA : UserRow := { id := "uA", email := "a@x.com" }

def userB : UserRow := { id := "uB", email := "b@x.com" }

def form1 : FormRow := { id := "f1", share_code := "G", is_active := true, title := "T" }

def sc1 : SharingCodeRow :=
  { id := "scid1", share_code := "G", form_id := "f1", group_name := "grp", is_active := true }

def fieldName : FieldRow := { id := "fld1", form_id := "f1", label := "Name", ty := "TEXT" }

def sessA : Session := { sid := "s1", userId := "uA", userEmail := "a@x.com", rooms := ["G"] }

def sessB : Session := { sid := "s2", userId := "uB", userEmail := "b@x.com", rooms := ["G"] }

def baseDB : DB :=
  { users := [userA, userB], forms := [form1], form_sharing_codes := [sc1],
    form_fields := [fieldName], field_locks := [], form_responses := [],
    response_fields := [], field_contributions := [] }

def baseState : ServerState :=
  { db := baseDB, sessions := [sessA, sessB], nextRespId := 0, respUpsertFails := false }

/-- The state after user A acquires the lock on `fld1` in group `G` at
time 0 through the `lock-field` handler. -/
def stateAfterLockA : ServerState := (lockField baseState sessA "G" "fld1" 0).1

example : stateAfterLockA.db.field_locks =
    [{ user_id := "uA", form_id := "f1", field_id := "fld1",
       sharing_code_id := none, expires_at := 60000 }] := by decide

example : (lockField baseState sessA "G" "fld1" 0).2 =
    [⟨.room "G", .fieldLocked "fld1" "uA" "a@x.com"⟩] := by decide

example : (lockField stateAfterLockA sessB "G" "fld1" 1000).2 =
    [⟨.socketOnly "s2", .lockFailed "fld1" "Field already locked" "a@x.com"⟩] := by decide

example : (fieldUpdate stateAfterLockA sessB "G" "fld1" "hello" 1000).2 =
    [⟨.roomExcept "G" "s2", .fieldUpdated "fld1" "hello" "b@x.com" "Name" "grp" 1000⟩] := by
  decide

example : (cleanupExpiredLocks stateAfterLockA 90000).2 = [] := by decide

example : (cleanupExpiredLocks stateAfterLockA 90000).1.db.field_locks = [] := by decide

example : (disconnectHandler stateAfterLockA sessA).2 = [] := by decide

/-! ## Helper lemmas about the handlers -/

/-- The accepted-update tail emits exactly the `field-updated` broadcast
to the room minus the sender. -/
theorem acceptFieldUpdate_snd (st : ServerState) (s : Session) (sc : SharingCodeRow)
    (form : FormRow) (field : FieldRow) (shareCode fieldId sanitizedValue : String)
    (lockOpt : Option LockRow) (now : Nat) :
    (acceptFieldUpdate st s sc form field shareCode fieldId sanitizedValue lockOpt now).2 =
      [⟨.roomExcept shareCode s.sid,
        .fieldUpdated fieldId sanitizedValue s.userEmail field.label sc.group_name now⟩] :=
  rfl

theorem getOrCreateCollaborativeResponse_response_fields (st : ServerState)
    (formId scId userId : String) (now : Nat) :
    (getOrCreateCollaborativeResponse st formId scId userId now).1.db.response_fields =
      st.db.response_fields := by
  unfold getOrCreateCollaborativeResponse
  cases latestResponse st.db formId scId <;> rfl

theorem getOrCreateCollaborativeResponse_respUpsertFails (st : ServerState)
    (formId scId userId : String) (now : Nat) :
    (getOrCreateCollaborativeResponse st formId scId userId now).1.respUpsertFails =
      st.respUpsertFails := by
  unfold getOrCreateCollaborativeResponse
  cases latestResponse st.db formId scId <;> rfl

/-- When the `response_fields` upsert fails, the accepted-update tail
leaves the draft table untouched (the source only logs the error). -/
theorem acceptFieldUpdate_response_fields_of_fail (st : ServerState) (s : Session)
    (sc : SharingCodeRow) (form : FormRow) (field : FieldRow)
    (shareCode fieldId sanitizedValue : String) (lockOpt : Option LockRow) (now : Nat)
    (hfail : st.respUpsertFails = true) :
    (acceptFieldUpdate st s sc form field shareCode fieldId sanitizedValue
        lockOpt now).1.db.response_fields = st.db.response_fields := by
  simp only [acceptFieldUpdate]
  cases hv : sanitizedValue != "" <;>
    simp only [hv, Bool.false_eq_true, if_false, if_true,
      getOrCreateCollaborativeResponse_respUpsertFails, hfail,
      getOrCreateCollaborativeResponse_response_fields] <;>
    cases lockOpt <;>
    (try split) <;>
    simp [getOrCreateCollaborativeResponse_response_fields]

/-! ## Claim C10 -/

/-- C10: because `socketService.ts` registers two listeners for the
`form-reset` event (lines 762-780 and 783-801), a single `form-reset`
request causes the `form-reset-all` broadcast to be emitted twice to the
room, so each member of the room observes two reset events per reset
action. -/
theorem C10_form_reset_double_broadcast (shareCode resetBy : String) (now : Nat)
    (m : Session) (hm : m.rooms.contains shareCode = true) :
    formResetDispatch shareCode resetBy now =
      [⟨.room shareCode, .formResetAll resetBy now⟩,
       ⟨.room shareCode, .formResetAll resetBy now⟩]
    ∧ ((formResetDispatch shareCode resetBy now).filter
        (fun e => receives e m)).length = 2 := by
  have hm' : shareCode ∈ m.rooms := by simpa using hm
  refine ⟨rfl, ?_⟩
  simp [formResetDispatch, formResetHandlerA, formResetHandlerB, receives, hm']

/-- Witness for C10 at a concrete room member. -/
theorem C10_form_reset_double_broadcast_witness :
    formResetDispatch "G" "a@x.com" 5 =
      [⟨.room "G", .formResetAll "a@x.com" 5⟩, ⟨.room "G", .formResetAll "a@x.com" 5⟩]
    ∧ ((formResetDispatch "G" "a@x.com" 5).filter (fun e => receives e sessB)).length = 2 :=
  C10_form_reset_double_broadcast "G" "a@x.com" 5 sessB (by decide)

/-! ## Claim C8 -/

/-- C8: a `form-submit` in a group whose share code resolves emits a
single `form-submitted-all` event targeted at the whole room, so every
member — the submitter included — receives that one event, and all
members receive identical `submittedBy`, `responseId` and `formData`
payloads because they all receive the same single emission. -/
theorem C8_submit_room_barrier (st : ServerState) (s : Session)
    (shareCode submittedBy responseId : String) (formData : List (String × String))
    (now : Nat) (sc : SharingCodeRow)
    (hsc : st.db.form_sharing_codes.find? (fun x => x.share_code == shareCode) = some sc) :
    formSubmitHandler st s shareCode submittedBy responseId formData now =
      (st, [⟨.room shareCode,
            .formSubmittedAll submittedBy responseId
              (((st.db.forms.filter (fun f => f.id == sc.form_id)).map
                  (fun f => f.title)).head?)
              sc.group_name now formData⟩])
    ∧ ∀ m : Session, m.rooms.contains shareCode = true →
        receives
          ⟨.room shareCode,
           .formSubmittedAll submittedBy responseId
             (((st.db.forms.filter (fun f => f.id == sc.form_id)).map
                 (fun f => f.title)).head?)
             sc.group_name now formData⟩ m = true := by
  constructor
  · unfold formSubmitHandler
    rw [hsc]
  · intro m hm
    have hm' : shareCode ∈ m.rooms := by simpa using hm
    simp [receives, hm']

/-- Witness for C8: both the submitter and the other member of the room
receive the single broadcast. -/
theorem C8_submit_room_barrier_witness :
    formSubmitHandler baseState sessA "G" "a@x.com" "r9" [("fld1", "Ada")] 7 =
      (baseState,
       [⟨.room "G", .formSubmittedAll "a@x.com" "r9" (some "T") "grp" 7 [("fld1", "Ada")]⟩])
    ∧ receives
        ⟨.room "G", .formSubmittedAll "a@x.com" "r9" (some "T") "grp" 7 [("fld1", "Ada")]⟩
        sessA = true
    ∧ receives
        ⟨.room "G", .formSubmittedAll "a@x.com" "r9" (some "T") "grp" 7 [("fld1", "Ada")]⟩
        sessB = true := by
  have h := C8_submit_room_barrier baseState sessA "G" "a@x.com" "r9" [("fld1", "Ada")] 7
    sc1 (by decide)
  exact ⟨h.1, h.2 sessA (by decide), h.2 sessB (by decide)⟩

/-! ## Claim C9 -/

/-- C9 exhibits a bug: when a session holding a lock disconnects, its
locks are indeed deleted (the handler deletes every `field_locks` row
with its `user_id`) and the connection registry no longer contains it,
but the handler emits **no** `user-left` and **no** `active-users`
broadcast at all, because it iterates `Array.from(socket.rooms)` inside
the `disconnect` event, where socket.io has already emptied
`socket.rooms` (the rooms are only visible in the `disconnecting`
event).  Here user A disconnects from room `G` while holding the lock on
`fld1` and while B remains: the locks are cleaned up, A is gone from the
roster, yet the handler notifies nobody. -/
theorem C9_disconnect_releases_locks_but_notifies_nobody :
    (disconnectHandler stateAfterLockA sessA).2 = []
    ∧ (disconnectHandler stateAfterLockA sessA).1.db.field_locks = []
    ∧ (disconnectHandler stateAfterLockA sessA).1.sessions = [sessB]
    ∧ getActiveUsersInRoom (disconnectHandler stateAfterLockA sessA).1.sessions "G" =
        ["b@x.com"] := by
  decide

/-! ## Claim C2 -/

/-- C2 exhibits a bug: a lock acquired through `lock-field` does **not**
cause a different user's subsequent `field-update` on the same field to
be rejected.  The `lock-field` upsert stores the row keyed by
`(form_id, field_id)` with no `sharing_code_id`, while the `field-update`
lock check filters `field_locks` on `sharing_code_id`, so the live lock
is invisible to it.  Concretely: A acquires the lock on `fld1` in group
`G` at t=0 (the lock is live until 60000), and at t=1000 B's
`field-update` on the same field is accepted — the `field-updated`
broadcast goes out and the draft is written — instead of being rejected
with an error naming A. -/
theorem C2_lock_does_not_block_other_users_update :
    liveLockFor stateAfterLockA.db "f1" "fld1" 1000 =
      some { user_id := "uA", form_id := "f1", field_id := "fld1",
             sharing_code_id := none, expires_at := 60000 }
    ∧ updateLockQuery stateAfterLockA.db sc1.id "fld1" 1000 = none
    ∧ (fieldUpdate stateAfterLockA sessB "G" "fld1" "hello" 1000).2 =
        [⟨.roomExcept "G" "s2", .fieldUpdated "fld1" "hello" "b@x.com" "Name" "grp" 1000⟩]
    ∧ (fieldUpdate stateAfterLockA sessB "G" "fld1" "hello" 1000).1.db.response_fields =
        [{ response_id := "resp-0", field_id := "fld1", value := "hello" }] := by
  decide

/-! ## Claim C7 -/

/-- C7 exhibits a bug: the sweeper removes an expired lock within one
sweep interval of its expiry, but emits **no** `field-unlocked`
notification for it, because every lock row the system ever writes (`the
lock-field` upsert is the only writer) carries no `sharing_code_id`, and
the sweeper can only notify rooms it resolves through that column (the
`Database` interface in `auth.ts` does not even declare the column on
`field_locks`).  Concretely: A's lock acquired at t=0 expires at 60000;
at the sweep instant 90000 = t + 60s + sweepInterval the lock is deleted
from the table, yet the emission list is empty — room `G` never receives
`field-unlocked` for `fld1`. -/
theorem C7_sweep_deletes_but_never_notifies :
    stateAfterLockA.db.field_locks =
      [{ user_id := "uA", form_id := "f1", field_id := "fld1",
         sharing_code_id := none, expires_at := 60000 }]
    ∧ sweepInstant 2 = 90000
    ∧ 60000 < sweepInstant 2
    ∧ sweepInstant 2 ≤ 60000 + 30000
    ∧ (cleanupExpiredLocks stateAfterLockA (sweepInstant 2)).1.db.field_locks = []
    ∧ (cleanupExpiredLocks stateAfterLockA (sweepInstant 2)).2 = [] := by
  decide

/-! ## Claim C6 -/

/-- The base scenario with the storage oracle set so that the
`response_fields` upsert inside `field-update` fails. -/
def failBase : ServerState := { baseState with respUpsertFails := true }

/-- Counterexample to C6 as claimed: user A's `field-update` of `fld1`
to `"hello"` hits a storage failure persisting the value, yet the
handler's emissions consist of exactly the `field-updated` broadcast to
the rest of the room — so the room **is** notified of a change that did
not persist (the draft table stays empty), and **no** error event is
surfaced to the acting session (the source only logs the upsert error,
after having already broadcast). -/
theorem C6_counterexample_broadcast_despite_storage_failure :
    (fieldUpdate failBase sessA "G" "fld1" "hello" 0).2 =
      [⟨.roomExcept "G" "s1", .fieldUpdated "fld1" "hello" "a@x.com" "Name" "grp" 0⟩]
    ∧ (fieldUpdate failBase sessA "G" "fld1" "hello" 0).1.db.response_fields = [] := by
  decide

/-- C6 as amended: when persisting the value into the shared response
fails on an otherwise accepted `field-update`, the draft table is left
unchanged and the failure is only logged — no error event is emitted to
the acting session, and the `field-updated` broadcast to the other room
members still occurs, because the source broadcasts before attempting
persistence. -/
theorem C6_amended_storage_failure_only_logged (st : ServerState) (s : Session)
    (shareCode fieldId value : String) (now : Nat) (sc : SharingCodeRow)
    (form : FormRow) (field : FieldRow)
    (h1 : (shareCode == "") = false) (h2 : (fieldId == "") = false)
    (hsc : findSharingCode st.db shareCode = some sc)
    (hform : st.db.forms.find? (fun f => f.id == sc.form_id) = some form)
    (hact : form.is_active = true)
    (hfield : st.db.form_fields.find?
        (fun f => f.id == fieldId && f.form_id == form.id) = some field)
    (hvalid : validateFieldValue field.ty (jsTrim value) = true)
    (hlock : ∀ l, updateLockQuery st.db sc.id fieldId now = some l → l.user_id = s.userId)
    (hfail : st.respUpsertFails = true) :
    (fieldUpdate st s shareCode fieldId value now).1.db.response_fields =
      st.db.response_fields
    ∧ (fieldUpdate st s shareCode fieldId value now).2 =
        [⟨.roomExcept shareCode s.sid,
          .fieldUpdated fieldId (jsTrim value) s.userEmail field.label sc.group_name now⟩] := by
  unfold fieldUpdate
  rw [h1, h2]
  simp only [Bool.or_self, Bool.false_eq_true, if_false, hsc, hform, hact,
    Bool.not_true, hfield, hvalid, Bool.not_true, Bool.and_false]
  cases hq : updateLockQuery st.db sc.id fieldId now with
  | none =>
      simp only [Bool.false_eq_true, if_false]
      exact ⟨acceptFieldUpdate_response_fields_of_fail st s sc form field shareCode fieldId
        (jsTrim value) none now hfail, acceptFieldUpdate_snd ..⟩
  | some l =>
      have hl : l.user_id = s.userId := hlock l hq
      have hne : (l.user_id != s.userId) = false := by simp [hl]
      simp only [hne, Bool.false_eq_true, if_false]
      exact ⟨acceptFieldUpdate_response_fields_of_fail st s sc form field shareCode fieldId
        (jsTrim value) (some l) now hfail, acceptFieldUpdate_snd ..⟩

/-- Witness for the amended C6 at the concrete failing state. -/
theorem C6_amended_storage_failure_only_logged_witness :
    (fieldUpdate failBase sessA "G" "fld1" "hello" 0).1.db.response_fields =
      failBase.db.response_fields
    ∧ (fieldUpdate failBase sessA "G" "fld1" "hello" 0).2 =
        [⟨.roomExcept "G" "s1",
          .fieldUpdated "fld1" (jsTrim "hello") "a@x.com" "Name" "grp" 0⟩] :=
  C6_amended_storage_failure_only_logged failBase sessA "G" "fld1" "hello" 0 sc1 form1
    fieldName (by decide) (by decide) (by decide) (by decide) (by decide) (by decide)
    (by decide)
    (fun l hl => by
      have hnone : updateLockQuery failBase.db sc1.id "fld1" 0 = none := by decide
      rw [hnone] at hl
      cases hl)
    (by decide)

/-! ## Claim C4 -/

/-- Case split on the emissions of `field-update`: every path emits
either a single error to the acting socket or the single `field-updated`
broadcast to the room minus the sender. -/
theorem fieldUpdate_snd_cases (st : ServerState) (s : Session)
    (shareCode fieldId value : String) (now : Nat) :
    (∃ msg, (fieldUpdate st s shareCode fieldId value now).2 =
      [⟨.socketOnly s.sid, .errorMsg msg⟩])
    ∨ (∃ sc : SharingCodeRow, ∃ field : FieldRow,
        (fieldUpdate st s shareCode fieldId value now).2 =
          [⟨.roomExcept shareCode s.sid,
            .fieldUpdated fieldId (jsTrim value) s.userEmail field.label
              sc.group_name now⟩]) := by
  simp only [fieldUpdate]
  split
  · exact Or.inl ⟨_, rfl⟩
  · split
    · exact Or.inl ⟨_, rfl⟩
    · rename_i sc hsc
      split
      · exact Or.inl ⟨_, rfl⟩
      · rename_i form hform
        split
        · exact Or.inl ⟨_, rfl⟩
        · split
          · exact Or.inl ⟨_, rfl⟩
          · rename_i field hfield
            split
            · exact Or.inl ⟨_, rfl⟩
            · split
              · split
                · exact Or.inl ⟨_, rfl⟩
                · exact Or.inr ⟨sc, field, rfl⟩
              · exact Or.inr ⟨sc, field, rfl⟩

/-- C4: whenever `field-update` emits a `field-updated` event, the event
is targeted at the room **minus the sending session**: the sender never
receives it, and every other member of the room receives it. -/
theorem C4_field_updated_never_echoed_to_sender (st : ServerState) (s : Session)
    (shareCode fieldId value : String) (now : Nat) (e : Emission)
    (he : e ∈ (fieldUpdate st s shareCode fieldId value now).2)
    (hupd : e.payload.isFieldUpdated = true) :
    e.target = .roomExcept shareCode s.sid
    ∧ receives e s = false
    ∧ ∀ m : Session, m.rooms.contains shareCode = true → m.sid ≠ s.sid →
        receives e m = true := by
  rcases fieldUpdate_snd_cases st s shareCode fieldId value now with ⟨msg, hsnd⟩ |
    ⟨sc, field, hsnd⟩
  · rw [hsnd] at he
    simp only [List.mem_singleton] at he
    subst he
    simp [Payload.isFieldUpdated] at hupd
  · rw [hsnd] at he
    simp only [List.mem_singleton] at he
    subst he
    refine ⟨rfl, ?_, ?_⟩
    · simp [receives]
    · intro m hm hne
      have hm' : shareCode ∈ m.rooms := by simpa using hm
      simp [receives, hm', hne]

/-- Witness for C4: B's accepted update in the concrete scenario is
delivered to A but not echoed back to B. -/
theorem C4_field_updated_never_echoed_to_sender_witness :
    receives ⟨.roomExcept "G" "s2", .fieldUpdated "fld1" "hi" "b@x.com" "Name" "grp" 3⟩
        sessB = false
    ∧ receives ⟨.roomExcept "G" "s2", .fieldUpdated "fld1" "hi" "b@x.com" "Name" "grp" 3⟩
        sessA = true := by
  have h := C4_field_updated_never_echoed_to_sender baseState sessB "G" "fld1" "hi" 3
    ⟨.roomExcept "G" "s2", .fieldUpdated "fld1" "hi" "b@x.com" "Name" "grp" 3⟩
    (by decide) (by decide)
  exact ⟨h.2.1, h.2.2 sessA (by decide) (by decide)⟩

/-! ## Claim C3 -/

/-- C3: the `lock-field` handler, for a share code resolving to an
active form.  If a non-expired lock held by a different user exists, the
request fails with a `lock-failed` event naming the holder (the holder's
email whenever the `users` join returns it) and the whole state — the
lock table included — is unchanged.  Otherwise (no live lock, or an
idempotent re-acquire by the same holder) the handler upserts the lock
row with expiry 60000 ms from now, changes nothing else, and broadcasts
`field-locked` to every member of the room. -/
theorem C3_lock_field_semantics (st : ServerState) (s : Session)
    (shareCode fieldId : String) (now : Nat) (form : FormRow)
    (hform : findForm st.db shareCode = some form) :
    (∀ l, liveLockFor st.db form.id fieldId now = some l → l.user_id ≠ s.userId →
        lockField st s shareCode fieldId now =
          (st, [⟨.socketOnly s.sid,
                 .lockFailed fieldId "Field already locked" (lockedByName st.db l)⟩])
        ∧ ∀ em, emailsOf st.db l.user_id = [em] → lockedByName st.db l = em)
    ∧ ((liveLockFor st.db form.id fieldId now = none
          ∨ ∃ l, liveLockFor st.db form.id fieldId now = some l ∧ l.user_id = s.userId) →
        lockField st s shareCode fieldId now =
          ({ st with db := { st.db with
                             field_locks := upsertLock st.db.field_locks
                               ({ user_id := s.userId, form_id := form.id,
                                  field_id := fieldId, sharing_code_id := none,
                                  expires_at := now + 60000 } : LockRow) } },
           [⟨.room shareCode, .fieldLocked fieldId s.userId s.userEmail⟩])
        ∧ ∀ m : Session, m.rooms.contains shareCode = true →
            receives ⟨.room shareCode, .fieldLocked fieldId s.userId s.userEmail⟩ m
              = true) := by
  constructor
  · intro l hl hne
    have hbne : (l.user_id != s.userId) = true := by simpa using hne
    constructor
    · simp [lockField, hform, hl, hbne]
    · intro em hem
      simp [lockedByName, hem]
  · intro h
    constructor
    · rcases h with hnone | ⟨l, hl, heq⟩
      · simp [lockField, hform, hnone]
      · have hbne : (l.user_id != s.userId) = false := by simp [heq]
        simp [lockField, hform, hl, hbne]
    · intro m hm
      have hm' : shareCode ∈ m.rooms := by simpa using hm
      simp [receives, hm']

/-- Witness for C3: in the concrete scenario, A acquires the lock on
`fld1` and the whole room (A included) is told `field-locked`. -/
theorem C3_lock_field_semantics_witness :
    lockField baseState sessA "G" "fld1" 0 =
      ({ baseState with db := { baseState.db with
                                field_locks := upsertLock baseState.db.field_locks
                                  ({ user_id := "uA", form_id := "f1",
                                     field_id := "fld1", sharing_code_id := none,
                                     expires_at := 60000 } : LockRow) } },
       [⟨.room "G", .fieldLocked "fld1" "uA" "a@x.com"⟩])
    ∧ receives ⟨.room "G", .fieldLocked "fld1" "uA" "a@x.com"⟩ sessA = true := by
  have h := C3_lock_field_semantics baseState sessA "G" "fld1" 0 form1 (by decide)
  have h2 := h.2 (Or.inl (by decide))
  exact ⟨h2.1, h2.2 sessA (by decide)⟩

/-! ## Claim C5 -/

/-- The invalid-value error message can never coincide with the
lock-conflict error message: they differ at their first character. -/
theorem invalid_msg_ne_locked_msg (a b : String) :
    ("Invalid value for " ++ a ++ " field")
      ≠ ("Field is locked by " ++ b ++ " in this group") := by
  intro h
  have h2 : ("Invalid value for " ++ a ++ " field").data
      = ("Field is locked by " ++ b ++ " in this group").data := by rw [h]
  rw [String.data_append, String.data_append, String.data_append, String.data_append] at h2
  have e1 : ("Invalid value for ").data = 'I' :: ("nvalid value for ").data := rfl
  have e2 : ("Field is locked by ").data = 'F' :: ("ield is locked by ").data := rfl
  rw [e1, e2] at h2
  simp [List.cons_append] at h2

/-- Reduction of `field-update` once the share code, form and field have
resolved and the form is active: what remains is the type-validation
gate followed by the lock check and the accepted-update tail. -/
theorem fieldUpdate_resolved (st : ServerState) (s : Session)
    (shareCode fieldId value : String) (now : Nat) (sc : SharingCodeRow)
    (form : FormRow) (field : FieldRow)
    (h1 : (shareCode == "") = false) (h2 : (fieldId == "") = false)
    (hsc : findSharingCode st.db shareCode = some sc)
    (hform : st.db.forms.find? (fun f => f.id == sc.form_id) = some form)
    (hact : form.is_active = true)
    (hfield : st.db.form_fields.find?
        (fun f => f.id == fieldId && f.form_id == form.id) = some field) :
    fieldUpdate st s shareCode fieldId value now =
      if jsTrim value != "" && !validateFieldValue field.ty (jsTrim value) then
        (st, [⟨.socketOnly s.sid, .errorMsg ("Invalid value for " ++ field.ty ++ " field")⟩])
      else
        match updateLockQuery st.db sc.id fieldId now with
        | some lock =>
            if lock.user_id != s.userId then
              (st, [⟨.socketOnly s.sid,
                     .errorMsg ("Field is locked by "
                       ++ (emailsOf st.db lock.user_id).headD "another user"
                       ++ " in this group")⟩])
            else
              acceptFieldUpdate st s sc form field shareCode fieldId (jsTrim value)
                (some lock) now
        | none =>
            acceptFieldUpdate st s sc form field shareCode fieldId (jsTrim value)
              none now := by
  simp only [fieldUpdate, h1, h2, Bool.or_self, Bool.false_eq_true, if_false, hsc,
    hform, hact, Bool.not_true, hfield]

/-- Once a `field-update` has passed (or skipped) the type-validation
gate, none of its emissions can be the invalid-value error. -/
theorem fieldUpdate_no_invalid_when_valid (st : ServerState) (s : Session)
    (shareCode fieldId value : String) (now : Nat) (sc : SharingCodeRow)
    (form : FormRow) (field : FieldRow)
    (h1 : (shareCode == "") = false) (h2 : (fieldId == "") = false)
    (hsc : findSharingCode st.db shareCode = some sc)
    (hform : st.db.forms.find? (fun f => f.id == sc.form_id) = some form)
    (hact : form.is_active = true)
    (hfield : st.db.form_fields.find?
        (fun f => f.id == fieldId && f.form_id == form.id) = some field)
    (hcond : (jsTrim value != "" && !validateFieldValue field.ty (jsTrim value)) = false) :
    ¬ ∃ e ∈ (fieldUpdate st s shareCode fieldId value now).2,
        e.payload = .errorMsg ("Invalid value for " ++ field.ty ++ " field") := by
  rw [fieldUpdate_resolved st s shareCode fieldId value now sc form field h1 h2 hsc hform
    hact hfield]
  rintro ⟨e, he, hpe⟩
  simp only [hcond, Bool.false_eq_true, if_false] at he
  cases hq : updateLockQuery st.db sc.id fieldId now with
  | none =>
      simp only [hq] at he
      rw [acceptFieldUpdate_snd] at he
      simp only [List.mem_singleton] at he
      subst he
      simp at hpe
  | some lock =>
      simp only [hq] at he
      by_cases hu : (lock.user_id != s.userId) = true
      · simp only [hu, if_true] at he
        simp only [List.mem_singleton] at he
        subst he
        simp only [Payload.errorMsg.injEq] at hpe
        exact invalid_msg_ne_locked_msg field.ty
          ((emailsOf st.db lock.user_id).headD "another user") hpe.symm
      · simp only [Bool.not_eq_true] at hu
        simp only [hu, Bool.false_eq_true, if_false] at he
        rw [acceptFieldUpdate_snd] at he
        simp only [List.mem_singleton] at he
        subst he
        simp at hpe

/-- C5: for a `field-update` whose references resolve, a trimmed
non-empty value is rejected with the invalid-value error exactly when it
fails `validateFieldValue` for the field's declared type (email pattern
for EMAIL, numeric-and-finite for NUMBER, length at most 10000 for
TEXT/TEXTAREA, at most 500 for DROPDOWN/RADIO, every comma-separated
token trimmed to at most 500 for CHECKBOX — the definition of
`validateFieldValue`); on rejection the handler returns the state
unchanged with the error as its only emission, so the draft is untouched
and no `field-updated` broadcast occurs; and an empty (all-whitespace)
value never triggers the invalid-value rejection, `validateFieldValue`
accepting the empty string for every type. -/
theorem C5_type_validation_gate (st : ServerState) (s : Session)
    (shareCode fieldId value : String) (now : Nat) (sc : SharingCodeRow)
    (form : FormRow) (field : FieldRow)
    (h1 : (shareCode == "") = false) (h2 : (fieldId == "") = false)
    (hsc : findSharingCode st.db shareCode = some sc)
    (hform : st.db.forms.find? (fun f => f.id == sc.form_id) = some form)
    (hact : form.is_active = true)
    (hfield : st.db.form_fields.find?
        (fun f => f.id == fieldId && f.form_id == form.id) = some field) :
    ((jsTrim value != "") = true →
      ((∃ e ∈ (fieldUpdate st s shareCode fieldId value now).2,
          e.payload = .errorMsg ("Invalid value for " ++ field.ty ++ " field"))
        ↔ validateFieldValue field.ty (jsTrim value) = false))
    ∧ ((jsTrim value != "") = true →
        validateFieldValue field.ty (jsTrim value) = false →
        fieldUpdate st s shareCode fieldId value now =
          (st, [⟨.socketOnly s.sid,
                 .errorMsg ("Invalid value for " ++ field.ty ++ " field")⟩]))
    ∧ (jsTrim value = "" →
        ¬ ∃ e ∈ (fieldUpdate st s shareCode fieldId value now).2,
            e.payload = .errorMsg ("Invalid value for " ++ field.ty ++ " field"))
    ∧ validateFieldValue field.ty "" = true := by
  have hreject : (jsTrim value != "") = true →
      validateFieldValue field.ty (jsTrim value) = false →
      fieldUpdate st s shareCode fieldId value now =
        (st, [⟨.socketOnly s.sid,
               .errorMsg ("Invalid value for " ++ field.ty ++ " field")⟩]) := by
    intro hne hval
    rw [fieldUpdate_resolved st s shareCode fieldId value now sc form field h1 h2 hsc
      hform hact hfield]
    have hcond : (jsTrim value != "" && !validateFieldValue field.ty (jsTrim value))
        = true := by simp [hne, hval]
    rw [if_pos hcond]
  refine ⟨?_, hreject, ?_, ?_⟩
  · intro hne
    constructor
    · intro hex
      cases hval : validateFieldValue field.ty (jsTrim value) with
      | false => rfl
      | true =>
          exact absurd hex (fieldUpdate_no_invalid_when_valid st s shareCode fieldId value
            now sc form field h1 h2 hsc hform hact hfield (by simp [hval]))
    · intro hval
      rw [hreject hne hval]
      exact ⟨⟨.socketOnly s.sid, .errorMsg ("Invalid value for " ++ field.ty ++ " field")⟩,
        by simp, rfl⟩
  · intro hemp
    exact fieldUpdate_no_invalid_when_valid st s shareCode fieldId value now sc form field
      h1 h2 hsc hform hact hfield (by simp [hemp])
  · rfl

/-- An EMAIL field added to the concrete scenario, for the C5 witness. -/
def emailField : FieldRow := { id := "fe", form_id := "f1", label := "Email", ty := "EMAIL" }

/-- The concrete scenario extended with the EMAIL field. -/
def emailState : ServerState :=
  { baseState with db := { baseDB with form_fields := [fieldName, emailField] } }

/-- Witness for C5: the invalid email `"not-an-email"` sent to an EMAIL
field is rejected with the invalid-value error and the state is
unchanged. -/
theorem C5_type_validation_gate_witness :
    fieldUpdate emailState sessA "G" "fe" "not-an-email" 0 =
      (emailState,
       [⟨.socketOnly "s1", .errorMsg ("Invalid value for " ++ "EMAIL" ++ " field")⟩]) :=
  (C5_type_validation_gate emailState sessA "G" "fe" "not-an-email" 0 sc1 form1 emailField
    (by decide) (by decide) (by decide) (by decide) (by decide) (by decide)).2.1
    (by decide) (by decide)

/-! ## Claim C1: lemmas about the interleaved acquisition model -/

/-- Pulling the liveness filter through the key filter: the live rows
for a key are the rows satisfying the handler's combined query
predicate. -/
theorem find?_none_of_liveRows_nil (fid fld : String) (now : Nat) (locks : List LockRow)
    (h : liveRowsForKey fid fld now locks = []) :
    locks.find? (lockLiveKey fid fld now) = none := by
  apply List.find?_eq_none.mpr
  intro l hl hLK
  have hsplit : lockKeyMatches fid fld l = true ∧ decide (now < l.expires_at) = true := by
    have hx : (lockKeyMatches fid fld l && decide (now < l.expires_at)) = true := hLK
    simp only [Bool.and_eq_true] at hx
    exact hx
  have hmem : l ∈ rowsForKey fid fld locks := List.mem_filter.mpr ⟨hl, hsplit.1⟩
  have hno := List.filter_eq_nil_iff.mp h l hmem
  exact hno hsplit.2

/-- Replacing every key-matching row by `r` rewrites the key's rows to
copies of `r`. -/
theorem rowsForKey_map_replace (fid fld : String) (r : LockRow)
    (hk : lockKeyMatches fid fld r = true) (ls : List LockRow) :
    rowsForKey fid fld (ls.map (fun l => if lockKeyMatches fid fld l then r else l))
      = (rowsForKey fid fld ls).map (fun _ => r) := by
  induction ls with
  | nil => rfl
  | cons a t ih =>
      cases ha : lockKeyMatches fid fld a <;>
        simp [rowsForKey, List.filter_cons, ha, hk] <;>
        simpa [rowsForKey] using ih

/-- After the handler's upsert of attempt `i`'s row, the conflict key
owns exactly that row — this is the uniqueness the
`onConflict: "form_id,field_id"` target provides. -/
theorem rowsForKey_upsert_attempt (users : Nat → String) (fid fld : String) (now : Nat)
    (i : Nat) (ls : List LockRow) (h : (rowsForKey fid fld ls).length ≤ 1) :
    rowsForKey fid fld (upsertLock ls (attemptRow users fid fld now i))
      = [attemptRow users fid fld now i] := by
  have hk : lockKeyMatches fid fld (attemptRow users fid fld now i) = true := by
    simp [lockKeyMatches, attemptRow]
  show rowsForKey fid fld
      (if ls.any (lockKeyMatches fid fld) then
        ls.map (fun l => if lockKeyMatches fid fld l then attemptRow users fid fld now i
          else l)
      else ls ++ [attemptRow users fid fld now i]) = _
  by_cases hany : ls.any (lockKeyMatches fid fld) = true
  · rw [if_pos hany, rowsForKey_map_replace fid fld _ hk ls]
    obtain ⟨x, hx⟩ : ∃ x, rowsForKey fid fld ls = [x] := by
      obtain ⟨y, hy, hky⟩ := List.any_eq_true.mp hany
      have hmem : y ∈ rowsForKey fid fld ls := List.mem_filter.mpr ⟨hy, hky⟩
      cases hrk : rowsForKey fid fld ls with
      | nil => rw [hrk] at hmem; cases hmem
      | cons z zs =>
          cases zs with
          | nil => exact ⟨z, rfl⟩
          | cons w ws => rw [hrk] at h; simp at h
    rw [hx]
    rfl
  · rw [if_neg hany]
    unfold rowsForKey
    rw [List.filter_append]
    have hnil : List.filter (lockKeyMatches fid fld) ls = [] := by
      apply List.filter_eq_nil_iff.mpr
      intro a ha hcontra
      exact hany (List.any_eq_true.mpr ⟨a, ha, hcontra⟩)
    rw [hnil]
    simp [hk]

/-- The row upserted by attempt `i` is live at `now` and is the key's
single live row afterwards. -/
theorem liveRowsForKey_upsert_attempt (users : Nat → String) (fid fld : String)
    (now : Nat) (i : Nat) (ls : List LockRow)
    (h : (rowsForKey fid fld ls).length ≤ 1) :
    liveRowsForKey fid fld now (upsertLock ls (attemptRow users fid fld now i))
      = [attemptRow users fid fld now i] := by
  unfold liveRowsForKey
  rw [rowsForKey_upsert_attempt users fid fld now i ls h]
  simp [attemptRow]

/-- A `check` step never changes the lock table. -/
theorem check_locks_eq (users : Nat → String) (fid fld : String) (now : Nat) (i : Nat)
    (st : RaceState) :
    (acquireStepRun users fid fld now (.check i) st).locks = st.locks := by
  simp only [acquireStepRun]
  cases st.locks.find? (lockLiveKey fid fld now) with
  | none => rfl
  | some l => by_cases hu : (l.user_id == users i) = true <;> simp [hu]

/-- A `check` step only ever grows the passed set. -/
theorem check_passed_mono (users : Nat → String) (fid fld : String) (now : Nat) (i j : Nat)
    (st : RaceState) (hj : j ∈ st.passed) :
    j ∈ (acquireStepRun users fid fld now (.check i) st).passed := by
  simp only [acquireStepRun]
  cases st.locks.find? (lockLiveKey fid fld now) with
  | none => exact List.mem_cons_of_mem _ hj
  | some l =>
      by_cases hu : (l.user_id == users i) = true <;> simp [hu] <;>
        first
          | exact Or.inr hj
          | exact hj

/-- The race invariant: the conflict key owns at most one row; moreover
either some attempt's live row already sits alone in the table, or no
live row exists yet and the remaining schedule still guarantees an
upsert (a passed attempt with its `put` pending, or a whole untouched
attempt). -/
def raceInv (users : Nat → String) (fid fld : String) (now : Nat) (st : RaceState)
    (rem : List AcquireStep) : Prop :=
  (rowsForKey fid fld st.locks).length ≤ 1 ∧
  ((∃ l j, liveRowsForKey fid fld now st.locks = [l] ∧ l.user_id = users j)
   ∨ (liveRowsForKey fid fld now st.locks = []
      ∧ ((∃ i, i ∈ st.passed ∧ AcquireStep.put i ∈ rem)
         ∨ ∃ i, List.Sublist [AcquireStep.check i, AcquireStep.put i] rem)))

/-- One interleaved step preserves the race invariant. -/
theorem raceInv_step (users : Nat → String) (fid fld : String) (now : Nat)
    (st : RaceState) (step : AcquireStep) (rem : List AcquireStep)
    (h : raceInv users fid fld now st (step :: rem)) :
    raceInv users fid fld now (acquireStepRun users fid fld now step st) rem := by
  obtain ⟨hlen, hrest⟩ := h
  cases step with
  | check i =>
      refine ⟨by rw [check_locks_eq]; exact hlen, ?_⟩
      rcases hrest with ⟨l, j, hl, hu⟩ | ⟨hnl, hmore⟩
      · exact Or.inl ⟨l, j, by rw [check_locks_eq]; exact hl, hu⟩
      · have hnl' : liveRowsForKey fid fld now
            (acquireStepRun users fid fld now (.check i) st).locks = [] := by
          rw [check_locks_eq]; exact hnl
        rcases hmore with ⟨i', hp, hm⟩ | ⟨i', hs⟩
        · refine Or.inr ⟨hnl', Or.inl ⟨i', check_passed_mono users fid fld now i i' st hp,
            ?_⟩⟩
          rcases List.mem_cons.mp hm with heq | hm'
          · cases heq
          · exact hm'
        · cases hs with
          | cons _ hs' => exact Or.inr ⟨hnl', Or.inr ⟨i', hs'⟩⟩
          | cons₂ _ hs' =>
              have hfind := find?_none_of_liveRows_nil fid fld now st.locks hnl
              have hpassed : i ∈ (acquireStepRun users fid fld now (.check i) st).passed := by
                simp only [acquireStepRun]
                rw [hfind]
                exact List.mem_cons_self _ _
              refine Or.inr ⟨hnl', Or.inl ⟨i, hpassed, ?_⟩⟩
              exact hs'.subset (List.mem_singleton_self _)
  | put i =>
      by_cases hp : i ∈ st.passed
      · have hloc : (acquireStepRun users fid fld now (.put i) st).locks
            = upsertLock st.locks (attemptRow users fid fld now i) := by
          simp only [acquireStepRun]
          rw [if_pos hp]
        constructor
        · rw [hloc, rowsForKey_upsert_attempt users fid fld now i st.locks hlen]
          simp
        · refine Or.inl ⟨attemptRow users fid fld now i, i, ?_, rfl⟩
          rw [hloc]
          exact liveRowsForKey_upsert_attempt users fid fld now i st.locks hlen
      · have hid : acquireStepRun users fid fld now (.put i) st = st := by
          simp only [acquireStepRun]
          rw [if_neg hp]
        rw [hid]
        refine ⟨hlen, ?_⟩
        rcases hrest with hsingle | ⟨hnl, hmore⟩
        · exact Or.inl hsingle
        · rcases hmore with ⟨i', hp', hm⟩ | ⟨i', hs⟩
          · refine Or.inr ⟨hnl, Or.inl ⟨i', hp', ?_⟩⟩
            rcases List.mem_cons.mp hm with heq | hm'
            · cases heq; exact absurd hp' hp
            · exact hm'
          · cases hs with
            | cons _ hs' => exact Or.inr ⟨hnl, Or.inr ⟨i', hs'⟩⟩

/-- Running a schedule from an invariant state keeps every intermediate
lock table at no more than one live lock for the key, and re-establishes
the invariant (with empty remainder) at the end. -/
theorem raceInv_run (users : Nat → String) (fid fld : String) (now : Nat)
    (sched : List AcquireStep) :
    ∀ st : RaceState, raceInv users fid fld now st sched →
      (∀ p, List.IsPrefix p sched →
        (liveRowsForKey fid fld now (runRace users fid fld now p st).locks).length ≤ 1)
      ∧ raceInv users fid fld now (runRace users fid fld now sched st) [] := by
  induction sched with
  | nil =>
      intro st h
      constructor
      · intro p hp
        rw [List.prefix_nil.mp hp]
        calc (liveRowsForKey fid fld now (runRace users fid fld now [] st).locks).length
            ≤ (rowsForKey fid fld (runRace users fid fld now [] st).locks).length :=
              List.length_filter_le _ _
          _ ≤ 1 := h.1
      · exact h
  | cons step rest ih =>
      intro st h
      have h' := raceInv_step users fid fld now st step rest h
      obtain ⟨ihp, ihf⟩ := ih (acquireStepRun users fid fld now step st) h'
      constructor
      · intro p hp
        cases p with
        | nil =>
            calc (liveRowsForKey fid fld now (runRace users fid fld now [] st).locks).length
                ≤ (rowsForKey fid fld (runRace users fid fld now [] st).locks).length :=
                  List.length_filter_le _ _
              _ ≤ 1 := h.1
        | cons a p' =>
            obtain ⟨rfl, hp'⟩ := List.cons_prefix_cons.mp hp
            exact ihp p' hp'
      · exact ihf

/-- C1: concurrent `lock-field` attempts on one `(form, field)` key —
each split into its awaited check and upsert halves, interleaved in any
order — starting from a table with no live lock on the key and at most
one stored row for it (the storage uniqueness constraint of the upsert's
conflict target): at every instant at most one non-expired lock exists
for the key, and once all steps have run exactly one live lock remains,
held by one of the attempting users — one winner.  Group codes map to
forms ((`lock-field` locks on the form resolved from the share code), so
per-key uniqueness is per-(group, field) uniqueness for every group of
that form. -/
theorem C1_concurrent_acquire_one_winner (users : Nat → String)
    (formId fieldId : String) (now : Nat) (init : List LockRow)
    (sched : List AcquireStep)
    (hkey : (rowsForKey formId fieldId init).length ≤ 1)
    (hnolive : liveRowsForKey formId fieldId now init = [])
    (hatt : ∃ i, List.Sublist [AcquireStep.check i, AcquireStep.put i] sched) :
    (∀ p, List.IsPrefix p sched →
        (liveRowsForKey formId fieldId now
          (runRace users formId fieldId now p ⟨init, []⟩).locks).length ≤ 1)
    ∧ ∃ l j, liveRowsForKey formId fieldId now
          (runRace users formId fieldId now sched ⟨init, []⟩).locks = [l]
        ∧ l.user_id = users j := by
  have h0 : raceInv users formId fieldId now ⟨init, []⟩ sched :=
    ⟨hkey, Or.inr ⟨hnolive, Or.inr hatt⟩⟩
  obtain ⟨hp, hf⟩ := raceInv_run users formId fieldId now sched ⟨init, []⟩ h0
  refine ⟨hp, ?_⟩
  rcases hf.2 with hone | ⟨_, hmore⟩
  · exact hone
  · rcases hmore with ⟨i, _, hm⟩ | ⟨i, hs⟩
    · exact absurd hm (List.not_mem_nil _)
    · have := hs.length_le
      simp at this

/-- Witness for C1: two fully interleaved attempts (both checks run
before both upserts — the racy schedule) by users `uA` and `uB` on an
empty table end with exactly one live lock, held by the last upserter. -/
theorem C1_concurrent_acquire_one_winner_witness :
    (∀ p, List.IsPrefix p
        [AcquireStep.check 0, AcquireStep.check 1, AcquireStep.put 0, AcquireStep.put 1] →
      (liveRowsForKey "f1" "fld1" 0
        (runRace (fun i => if i = 0 then "uA" else "uB") "f1" "fld1" 0 p
          ⟨[], []⟩).locks).length ≤ 1)
    ∧ ∃ l j, liveRowsForKey "f1" "fld1" 0
          (runRace (fun i => if i = 0 then "uA" else "uB") "f1" "fld1" 0
            [AcquireStep.check 0, AcquireStep.check 1, AcquireStep.put 0, AcquireStep.put 1]
            ⟨[], []⟩).locks = [l]
        ∧ l.user_id = (fun i => if i = 0 then "uA" else "uB") j :=
  C1_concurrent_acquire_one_winner (fun i => if i = 0 then "uA" else "uB") "f1" "fld1" 0
    [] [AcquireStep.check 0, AcquireStep.check 1, AcquireStep.put 0, AcquireStep.put 1]
    (by decide) rfl ⟨0, by decide⟩
